import Mathlib

/-!
Verification of the DDPG reacher agent (`agent.py`, `train_agent.py`).

Numeric tensors are embedded as lists of rationals; Python's `deque(maxlen=n)`
is embedded as a list that drops its oldest elements on overflow; the
autograd/optimizer machinery of `Agent.learn` is embedded as an explicit state
machine over gradient buffers, with the gradient values of each loss and the
optimizer's step function kept abstract.
-/

namespace DRLND

/-- The Experience record stored by the replay buffer
(`ReplayBuffer.__init__`: namedtuple with fields state, action, reward,
next_state, done). `done` is stored as the boolean flag passed to `add`. -/
structure Experience where
  state : List ℚ
  action : List ℚ
  reward : ℚ
  next_state : List ℚ
  done : Bool
  deriving DecidableEq, Repr

/-- One append to a Python `deque(maxlen := cap)`: the new element goes to the
right, and if the result exceeds `cap` elements the oldest (leftmost) ones are
dropped. Embeds `self.memory.append(e)` in `ReplayBuffer.add`. -/
def dequeAppend (cap : ℕ) (xs : List α) (x : α) : List α :=
  let ys := xs ++ [x]
  if cap < ys.length then ys.drop (ys.length - cap) else ys

/-- The replay buffer contents after a sequence of `add` calls starting from
the empty buffer (`ReplayBuffer.__init__` creates `deque(maxlen=buffer_size)`
empty; `add` only appends). -/
def bufferAfter (cap : ℕ) (es : List Experience) : List Experience :=
  es.foldl (dequeAppend cap) []

/-- `ReplayBuffer.sample` draws its batch from `self.memory`
(`random.sample(self.memory, k=...)`), so a record is retrievable by some
sampling exactly when it is a member of the buffer contents. -/
def retrievable (e : Experience) (buf : List Experience) : Prop := e ∈ buf

instance (e : Experience) (buf : List Experience) : Decidable (retrievable e buf) :=
  inferInstanceAs (Decidable (e ∈ buf))

theorem dequeAppend_length_le (cap : ℕ) (xs : List α) (x : α)
    (h : xs.length ≤ cap) : (dequeAppend cap xs x).length ≤ cap := by
  unfold dequeAppend
  by_cases hc : cap < (xs ++ [x]).length
  · simp only [if_pos hc, List.length_drop]
    omega
  · simp only [if_neg hc]
    omega

theorem dequeAppend_eq_drop (cap : ℕ) (l : List α) (x : α) :
    dequeAppend cap l x = (l ++ [x]).drop (l.length + 1 - cap) := by
  unfold dequeAppend
  simp only [List.length_append, List.length_cons, List.length_nil]
  by_cases hc : cap < l.length + (0 + 1)
  · rw [if_pos hc]
  · rw [if_neg hc]
    have h0 : l.length + 1 - cap = 0 := by omega
    rw [h0, List.drop_zero]

theorem bufferAfter_eq_drop (cap : ℕ) (es : List Experience) :
    bufferAfter cap es = es.drop (es.length - cap) := by
  induction es using List.reverseRecOn with
  | nil => simp [bufferAfter]
  | append_singleton es e ih =>
    have hstep : bufferAfter cap (es ++ [e]) = dequeAppend cap (bufferAfter cap es) e := by
      simp [bufferAfter]
    rw [hstep, ih, dequeAppend_eq_drop]
    rw [List.drop_append_eq_append_drop, List.drop_append_eq_append_drop,
      List.drop_drop]
    simp only [List.length_drop, List.length_append, List.length_cons,
      List.length_nil]
    congr 1
    · congr 1
      omega
    · congr 1
      omega

theorem bufferAfter_length_le (cap : ℕ) (es : List Experience) :
    (bufferAfter cap es).length ≤ cap := by
  rw [bufferAfter_eq_drop]
  simp [List.length_drop]
  omega

/-- C6: for every sequence of `add` calls, the buffer never holds more than
`cap` records; `add` is a total function (always succeeds); the contents are
exactly the most recent `cap` records, so once more than `cap` records have
been inserted the oldest insertion has been evicted and, unless an equal
record was re-inserted among the survivors, it is no longer retrievable by
any sampling. -/
theorem replay_buffer_capacity_fifo (cap : ℕ) (es : List Experience) :
    (bufferAfter cap es).length ≤ cap ∧
    bufferAfter cap es = es.drop (es.length - cap) ∧
    (∀ e rest, es = e :: rest → cap < es.length →
      e ∉ es.drop (es.length - cap) → ¬ retrievable e (bufferAfter cap es)) := by
  refine ⟨bufferAfter_length_le cap es, bufferAfter_eq_drop cap es, ?_⟩
  intro e rest hes hlt hnot
  rw [retrievable, bufferAfter_eq_drop]
  exact hnot

/-- Witness for C6: with capacity 2 and three distinct inserted records, the
buffer holds the last two and the first record is gone. -/
theorem replay_buffer_capacity_fifo_witness :
    let e1 : Experience := ⟨[1], [0], 0, [1], false⟩
    let e2 : Experience := ⟨[2], [0], 0, [2], false⟩
    let e3 : Experience := ⟨[3], [0], 0, [3], false⟩
    (bufferAfter 2 [e1, e2, e3]).length ≤ 2 ∧
    bufferAfter 2 [e1, e2, e3] = [e2, e3] ∧
    ¬ retrievable e1 (bufferAfter 2 [e1, e2, e3]) := by
  intro e1 e2 e3
  have h := replay_buffer_capacity_fifo 2 [e1, e2, e3]
  refine ⟨h.1, ?_, ?_⟩
  · rw [h.2.1]; decide
  · exact h.2.2 e1 [e2, e3] rfl (by decide) (by decide)

/-! ### Agent.learn — critic target computation (lines 101-108) -/

/-- `mask = torch.tensor(1 - dones)` in `Agent.learn`: elementwise `1 - d`. -/
def learnMask (dones : List ℚ) : List ℚ := dones.map (fun d => 1 - d)

/-- `Q_prime = rewards + gamma * next_Q * mask` (`Agent.learn`, line 107),
elementwise over the mini-batch column vectors. -/
def qPrime (gamma : ℚ) (rewards nextQ dones : List ℚ) : List ℚ :=
  List.zipWith (· + ·) rewards
    (List.zipWith (fun nq m => gamma * nq * m) nextQ (learnMask dones))

/-- The critic target exactly as `Agent.learn` computes it:
`next_actions = self.actor_target(next_states)`,
`next_Q = self.critic_target(next_states, next_actions)` (the `.detach()` on
`next_actions` only severs the gradient graph, it does not change the value),
then `Q_prime = rewards + gamma * next_Q * mask`. The two target networks are
abstract batch functions. -/
def criticTargetOf (actorTargetNet : List (List ℚ) → List (List ℚ))
    (criticTargetNet : List (List ℚ) → List (List ℚ) → List ℚ)
    (gamma : ℚ) (rewards : List ℚ) (next_states : List (List ℚ))
    (dones : List ℚ) : List ℚ :=
  qPrime gamma rewards (criticTargetNet next_states (actorTargetNet next_states)) dones

theorem qPrime_all_done (gamma : ℚ) :
    ∀ (r nq d : List ℚ), nq.length = r.length → d.length = r.length →
      (∀ x ∈ d, x = 1) → qPrime gamma r nq d = r := by
  intro r
  induction r with
  | nil => intro nq d _ _ _; simp [qPrime]
  | cons r0 rs ih =>
    intro nq d hnq hd hall
    match nq, d with
    | nq0 :: nqs, d0 :: ds =>
      have h0 : d0 = 1 := hall d0 (by simp)
      simp only [qPrime, learnMask, List.map_cons, List.zipWith_cons_cons] at *
      rw [h0, ih nqs ds (by simpa using hnq) (by simpa using hd)
        (fun x hx => hall x (by simp [hx]))]
      have hh : r0 + gamma * nq0 * (1 - 1) = r0 := by ring
      rw [hh]

/-- C1: the critic target is `R + γ·next_Q·(1−D)` with
`next_Q = TargetValue(S′, TargetPolicy(S′))`; on a mini-batch whose terminal
flags are all `1`, the computed target equals the rewards vector exactly,
whatever the target networks compute. -/
theorem critic_target_terminal_masking
    (actorTargetNet : List (List ℚ) → List (List ℚ))
    (criticTargetNet : List (List ℚ) → List (List ℚ) → List ℚ)
    (gamma : ℚ) (rewards : List ℚ) (next_states : List (List ℚ)) (dones : List ℚ)
    (hlen : (criticTargetNet next_states (actorTargetNet next_states)).length
      = rewards.length)
    (hdlen : dones.length = rewards.length)
    (hterm : ∀ x ∈ dones, x = 1) :
    criticTargetOf actorTargetNet criticTargetNet gamma rewards next_states dones
      = rewards := by
  unfold criticTargetOf
  exact qPrime_all_done gamma rewards _ dones hlen hdlen hterm

/-- Witness for C1: a two-element all-terminal batch, with a target-network
pair returning nonzero values, yields exactly the rewards. -/
theorem critic_target_terminal_masking_witness :
    criticTargetOf (fun b => b) (fun _ _ => [7, 9]) (99/100) [2, 3]
      [[5], [6]] [1, 1] = [2, 3] :=
  critic_target_terminal_masking (fun b => b) (fun _ _ => [7, 9]) (99/100)
    [2, 3] [[5], [6]] [1, 1] (by decide) (by decide) (by decide)

/-! ### Soft updates (Agent.actor_soft_update / Agent.critic_soft_update) -/

/-- One soft update of a parameter list:
`target_param ← tau * param + (1.0 - tau) * target_param`, elementwise over
the zipped parameter sequences (lines 133-135 and 143-145 of `agent.py`). -/
def softUpdate (tau : ℚ) (live target : List ℚ) : List ℚ :=
  List.zipWith (fun p t => tau * p + (1 - tau) * t) live target

theorem softUpdate_length (tau : ℚ) (live target : List ℚ) :
    (softUpdate tau live target).length = min live.length target.length := by
  simp [softUpdate]

theorem softUpdate_getD (tau : ℚ) :
    ∀ (live l : List ℚ) (i : ℕ), i < live.length → i < l.length →
      (softUpdate tau live l).getD i 0
        = tau * live.getD i 0 + (1 - tau) * l.getD i 0 := by
  intro live
  induction live with
  | nil => intro l i h _; simp at h
  | cons p ps ih =>
    intro l i h1 h2
    match l, i with
    | t :: ts, 0 => simp [softUpdate]
    | t :: ts, i + 1 =>
      simp only [softUpdate, List.zipWith_cons_cons, List.getD_cons_succ]
      exact ih ts i (by simpa using h1) (by simpa using h2)

theorem softUpdate_iterate_length (tau : ℚ) (live target : List ℚ)
    (hlen : live.length = target.length) (k : ℕ) :
    ((softUpdate tau live)^[k] target).length = target.length := by
  induction k with
  | zero => simp
  | succ k ih =>
    rw [Function.iterate_succ_apply', softUpdate_length, ih, hlen, min_self]

theorem softUpdate_iterate_getD (tau : ℚ) (live target : List ℚ)
    (hlen : live.length = target.length) (i : ℕ) (hi : i < target.length) :
    ∀ k : ℕ, ((softUpdate tau live)^[k] target).getD i 0 - live.getD i 0
      = (1 - tau) ^ k * (target.getD i 0 - live.getD i 0) := by
  intro k
  induction k with
  | zero => simp
  | succ k ih =>
    rw [Function.iterate_succ_apply']
    rw [softUpdate_getD tau live _ i (by omega)
      (by rw [softUpdate_iterate_length tau live target hlen]; exact hi)]
    have : tau * live.getD i 0
        + (1 - tau) * ((softUpdate tau live)^[k] target).getD i 0
        - live.getD i 0
        = (1 - tau) * (((softUpdate tau live)^[k] target).getD i 0
            - live.getD i 0) := by ring
    rw [this, ih, pow_succ]
    ring

/-! ### Agent.learn — parameter/gradient state machine (lines 111-125)

The four networks' parameter vectors and the live networks' autograd `.grad`
accumulators, with the gradient value contributed by each loss left abstract.
`policy_loss = -critic(states, actor(states)).mean()` holds BOTH live
networks in its graph, so its backward writes into both `.grad` buffers;
`critic_loss = mse(critic(states, actions), Q_prime.detach())` holds only the
live critic (`actions` are replay-buffer leaves, `next_actions` and `Q_prime`
are detached), so its backward writes only into the critic's buffer. -/

structure LearnState where
  actorP : List ℚ
  criticP : List ℚ
  actorT : List ℚ
  criticT : List ℚ
  actorG : List ℚ
  criticG : List ℚ
  deriving Repr, DecidableEq

/-- Gradient accumulation: autograd `.backward()` adds into `.grad`. -/
def accumulate (g h : List ℚ) : List ℚ := List.zipWith (· + ·) g h

/-- `self.actor.zero_grad()` (line 115). -/
def actorZeroGrad (s : LearnState) : LearnState :=
  { s with actorG := s.actorG.map (fun _ => 0) }

/-- `self.critic.zero_grad()` (line 120). -/
def criticZeroGrad (s : LearnState) : LearnState :=
  { s with criticG := s.criticG.map (fun _ => 0) }

/-- `policy_loss.backward()` (line 116): accumulates the policy loss's
gradient `gPA` into the actor's buffer and `gPC` into the critic's buffer. -/
def backwardPolicyLoss (gPA gPC : List ℚ) (s : LearnState) : LearnState :=
  { s with actorG := accumulate s.actorG gPA,
           criticG := accumulate s.criticG gPC }

/-- `critic_loss.backward()` (line 121): accumulates the critic loss's
gradient `gCC` into the critic's buffer only. -/
def backwardCriticLoss (gCC : List ℚ) (s : LearnState) : LearnState :=
  { s with criticG := accumulate s.criticG gCC }

/-- `self.actor_optimizer.step()` (line 117): the optimizer was constructed
over `self.actor.parameters()` only, so it updates exactly the live actor
parameters, as a function `stepA` of them and the actor's `.grad` buffer. -/
def actorOptStep (stepA : List ℚ → List ℚ → List ℚ) (s : LearnState) : LearnState :=
  { s with actorP := stepA s.actorP s.actorG }

/-- `self.critic_optimizer.step()` (line 122). -/
def criticOptStep (stepC : List ℚ → List ℚ → List ℚ) (s : LearnState) : LearnState :=
  { s with criticP := stepC s.criticP s.criticG }

/-- `Agent.actor_soft_update` on the learn state. -/
def actor_soft_update (tau : ℚ) (s : LearnState) : LearnState :=
  { s with actorT := softUpdate tau s.actorP s.actorT }

/-- `Agent.critic_soft_update` on the learn state. -/
def critic_soft_update (tau : ℚ) (s : LearnState) : LearnState :=
  { s with criticT := softUpdate tau s.criticP s.criticT }

/-- Lines 114-122 of `agent.py` in program order: actor zero-grad, policy
backward, actor optimizer step, critic zero-grad, critic backward, critic
optimizer step. -/
def learnGradSteps (gPA gPC gCC : List ℚ)
    (stepA stepC : List ℚ → List ℚ → List ℚ) (s : LearnState) : LearnState :=
  criticOptStep stepC (backwardCriticLoss gCC (criticZeroGrad
    (actorOptStep stepA (backwardPolicyLoss gPA gPC (actorZeroGrad s)))))

/-- Lines 114-125: the gradient steps followed by both soft updates. -/
def learnUpdate (gPA gPC gCC : List ℚ)
    (stepA stepC : List ℚ → List ℚ → List ℚ) (tau : ℚ) (s : LearnState) :
    LearnState :=
  critic_soft_update tau (actor_soft_update tau
    (learnGradSteps gPA gPC gCC stepA stepC s))

theorem accumulate_map_zero :
    ∀ (l g : List ℚ), l.length = g.length →
      accumulate (l.map (fun _ => 0)) g = g := by
  intro l
  induction l with
  | nil =>
    intro g h
    cases g with
    | nil => simp [accumulate]
    | cons g0 gs => simp at h
  | cons a as ih =>
    intro g h
    cases g with
    | nil => simp at h
    | cons g0 gs =>
      simp only [accumulate, List.map_cons, List.zipWith_cons_cons, zero_add]
      rw [show List.zipWith (· + ·) (as.map (fun _ => (0:ℚ))) gs
          = accumulate (as.map (fun _ => 0)) gs from rfl]
      rw [ih gs (by simpa using h)]

/-- C3: the two optimizer steps are independent. Whatever gradients were left
in the buffers before the call, the actor optimizer step consumes exactly the
policy loss's actor gradient `gPA` (the critic loss's gradient never reaches
it), and — because `self.critic.zero_grad()` runs after the policy backward —
the critic optimizer step consumes exactly the critic loss's gradient `gCC`,
uncontaminated by the policy loss's critic gradient `gPC`. -/
theorem learn_gradient_isolation (gPA gPC gCC : List ℚ)
    (stepA stepC : List ℚ → List ℚ → List ℚ) (s : LearnState)
    (hA : s.actorG.length = gPA.length)
    (hC1 : s.criticG.length = gPC.length) (hC2 : gPC.length = gCC.length) :
    (learnGradSteps gPA gPC gCC stepA stepC s).actorP = stepA s.actorP gPA
    ∧ (learnGradSteps gPA gPC gCC stepA stepC s).criticP = stepC s.criticP gCC := by
  have hlen : (accumulate s.criticG gPC).length = gCC.length := by
    simp [accumulate]
    omega
  simp only [learnGradSteps, criticOptStep, backwardCriticLoss, criticZeroGrad,
    actorOptStep, backwardPolicyLoss, actorZeroGrad]
  constructor
  · rw [accumulate_map_zero s.actorG gPA hA]
  · rw [accumulate_map_zero (accumulate s.criticG gPC) gCC hlen]

/-- Witness for C3 on a concrete one-parameter state with stale gradients in
both buffers and optimizer steps that record the gradient they consumed. -/
theorem learn_gradient_isolation_witness :
    (learnGradSteps [5] [6] [7] (fun p g => p ++ g) (fun p g => p ++ g)
      ⟨[1], [2], [3], [4], [10], [20]⟩).actorP = [1, 5]
    ∧ (learnGradSteps [5] [6] [7] (fun p g => p ++ g) (fun p g => p ++ g)
      ⟨[1], [2], [3], [4], [10], [20]⟩).criticP = [2, 7] :=
  learn_gradient_isolation [5] [6] [7] (fun p g => p ++ g) (fun p g => p ++ g)
    ⟨[1], [2], [3], [4], [10], [20]⟩ (by decide) (by decide) (by decide)

/-- C7: the two optimizer steps change only live parameters — after the
gradient phase both target parameter vectors are untouched; the live vectors
were set by the respective optimizer step functions; and the full learning
update moves the targets exclusively through the soft-update rule applied to
the old targets and the new live parameters. -/
theorem learn_target_isolation (gPA gPC gCC : List ℚ)
    (stepA stepC : List ℚ → List ℚ → List ℚ) (tau : ℚ) (s : LearnState) :
    (learnGradSteps gPA gPC gCC stepA stepC s).actorT = s.actorT
    ∧ (learnGradSteps gPA gPC gCC stepA stepC s).criticT = s.criticT
    ∧ (learnGradSteps gPA gPC gCC stepA stepC s).actorP
        = stepA s.actorP (accumulate (s.actorG.map (fun _ => 0)) gPA)
    ∧ (learnGradSteps gPA gPC gCC stepA stepC s).criticP
        = stepC s.criticP
            (accumulate ((accumulate s.criticG gPC).map (fun _ => 0)) gCC)
    ∧ (learnUpdate gPA gPC gCC stepA stepC tau s).actorT
        = softUpdate tau (learnGradSteps gPA gPC gCC stepA stepC s).actorP s.actorT
    ∧ (learnUpdate gPA gPC gCC stepA stepC tau s).criticT
        = softUpdate tau (learnGradSteps gPA gPC gCC stepA stepC s).criticP s.criticT := by
  refine ⟨rfl, rfl, rfl, rfl, rfl, rfl⟩

theorem actor_soft_update_iterate (tau : ℚ) (s : LearnState) :
    ∀ k : ℕ, ((actor_soft_update tau)^[k] s).actorP = s.actorP
      ∧ ((actor_soft_update tau)^[k] s).actorT
          = (softUpdate tau s.actorP)^[k] s.actorT := by
  intro k
  induction k with
  | zero => exact ⟨rfl, rfl⟩
  | succ k ih =>
    rw [Function.iterate_succ_apply', Function.iterate_succ_apply']
    refine ⟨?_, ?_⟩
    · rw [show (actor_soft_update tau (((actor_soft_update tau)^[k]) s)).actorP
          = (((actor_soft_update tau)^[k]) s).actorP from rfl, ih.1]
    · rw [show (actor_soft_update tau (((actor_soft_update tau)^[k]) s)).actorT
          = softUpdate tau (((actor_soft_update tau)^[k]) s).actorP
              (((actor_soft_update tau)^[k]) s).actorT from rfl, ih.1, ih.2]

theorem critic_soft_update_iterate (tau : ℚ) (s : LearnState) :
    ∀ k : ℕ, ((critic_soft_update tau)^[k] s).criticP = s.criticP
      ∧ ((critic_soft_update tau)^[k] s).criticT
          = (softUpdate tau s.criticP)^[k] s.criticT := by
  intro k
  induction k with
  | zero => exact ⟨rfl, rfl⟩
  | succ k ih =>
    rw [Function.iterate_succ_apply', Function.iterate_succ_apply']
    refine ⟨?_, ?_⟩
    · rw [show (critic_soft_update tau (((critic_soft_update tau)^[k]) s)).criticP
          = (((critic_soft_update tau)^[k]) s).criticP from rfl, ih.1]
    · rw [show (critic_soft_update tau (((critic_soft_update tau)^[k]) s)).criticT
          = softUpdate tau (((critic_soft_update tau)^[k]) s).criticP
              (((critic_soft_update tau)^[k]) s).criticT from rfl, ih.1, ih.2]

/-- C4: both soft updates apply `target ← τ·live + (1−τ)·target` elementwise,
and, holding the live network fixed (iterating the soft update alone fixes
the live parameters by construction), after `k` updates every target
parameter's remaining distance to its live parameter is exactly `(1−τ)^k`
times the initial distance — for the actor and for the critic. -/
theorem soft_update_geometric (tau : ℚ) (s : LearnState) (k i j : ℕ)
    (ha : s.actorP.length = s.actorT.length) (hia : i < s.actorT.length)
    (hc : s.criticP.length = s.criticT.length) (hjc : j < s.criticT.length) :
    (actor_soft_update tau s).actorT = softUpdate tau s.actorP s.actorT
    ∧ (critic_soft_update tau s).criticT = softUpdate tau s.criticP s.criticT
    ∧ ((actor_soft_update tau)^[k] s).actorT.getD i 0 - s.actorP.getD i 0
        = (1 - tau) ^ k * (s.actorT.getD i 0 - s.actorP.getD i 0)
    ∧ ((critic_soft_update tau)^[k] s).criticT.getD j 0 - s.criticP.getD j 0
        = (1 - tau) ^ k * (s.criticT.getD j 0 - s.criticP.getD j 0) := by
  refine ⟨rfl, rfl, ?_, ?_⟩
  · rw [(actor_soft_update_iterate tau s k).2]
    exact softUpdate_iterate_getD tau s.actorP s.actorT ha i hia k
  · rw [(critic_soft_update_iterate tau s k).2]
    exact softUpdate_iterate_getD tau s.criticP s.criticT hc j hjc k

/-- Witness for C4: τ = 1/2, two soft updates on a one-parameter state. -/
theorem soft_update_geometric_witness :
    ((actor_soft_update ((1:ℚ)/2))^[2]
        (⟨[1], [0], [3], [4], [], []⟩ : LearnState)).actorT.getD 0 0
      - (⟨[1], [0], [3], [4], [], []⟩ : LearnState).actorP.getD 0 0
    = (1 - 1/2) ^ 2 * ((⟨[1], [0], [3], [4], [], []⟩ : LearnState).actorT.getD 0 0
      - (⟨[1], [0], [3], [4], [], []⟩ : LearnState).actorP.getD 0 0) :=
  (soft_update_geometric (1/2) ⟨[1], [0], [3], [4], [], []⟩ 2 0 0
    (by decide) (by decide) (by decide) (by decide)).2.2.1

/-! ### Agent.step — learning cadence and sampling guard (lines 57-67) -/

/-- The state `Agent.step` touches: the counter `self.t_step` (initialized to
0 in `Agent.__init__`) and the replay memory. The settings constants
`UPDATE_EVERY`, `BATCH_SIZE`, `BUFFER_SIZE` are module parameters. -/
structure AgentSched where
  t_step : ℕ
  memory : List Experience
  deriving Repr, DecidableEq

/-- `Agent.step`: store the experience, advance `t_step` to
`(t_step + 1) % UPDATE_EVERY`, and — only when the counter wrapped to 0 and
`len(self.memory) > BATCH_SIZE` — sample a mini-batch and learn. Returns the
new state paired with whether `sample()`/`learn` was invoked. -/
def agentStep (UPDATE_EVERY BATCH_SIZE BUFFER_SIZE : ℕ)
    (s : AgentSched) (e : Experience) : AgentSched × Bool :=
  let mem := dequeAppend BUFFER_SIZE s.memory e
  let t := (s.t_step + 1) % UPDATE_EVERY
  (⟨t, mem⟩, t == 0 && decide (BATCH_SIZE < mem.length))

/-- The agent state after a sequence of `Agent.step` calls, from the freshly
constructed agent (`t_step = 0`, empty replay memory). -/
def agentRun (UPDATE_EVERY BATCH_SIZE BUFFER_SIZE : ℕ)
    (es : List Experience) : AgentSched :=
  es.foldl (fun s e => (agentStep UPDATE_EVERY BATCH_SIZE BUFFER_SIZE s e).1)
    ⟨0, []⟩

theorem agentRun_t_step_aux (UPDATE_EVERY BATCH_SIZE BUFFER_SIZE : ℕ)
    (hUE : 0 < UPDATE_EVERY) :
    ∀ (es : List Experience) (s : AgentSched), s.t_step < UPDATE_EVERY →
      (es.foldl
        (fun s e => (agentStep UPDATE_EVERY BATCH_SIZE BUFFER_SIZE s e).1)
          s).t_step
      = (s.t_step + es.length) % UPDATE_EVERY := by
  intro es
  induction es with
  | nil =>
    intro s hs
    simp [Nat.mod_eq_of_lt hs]
  | cons e es ih =>
    intro s hs
    rw [List.foldl_cons]
    rw [ih _ (Nat.mod_lt _ hUE)]
    show ((s.t_step + 1) % UPDATE_EVERY + es.length) % UPDATE_EVERY = _
    rw [Nat.mod_add_mod]
    congr 1
    simp [List.length_cons]
    omega

/-- C5: on every `Agent.step` call, `sample()` (equivalently, a learning
update) is invoked exactly when the counter wraps to zero AND the buffer
holds strictly more records than `BATCH_SIZE` — so `sample()` is never
exercised with length ≤ `BATCH_SIZE`; otherwise the call's only effect is
appending the record (and advancing the counter); and from the initial
agent, after `n` calls the counter is `n % UPDATE_EVERY`, so learning is
attempted once every `UPDATE_EVERY` calls, not on every call. -/
theorem agent_step_schedule (UPDATE_EVERY BATCH_SIZE BUFFER_SIZE : ℕ)
    (s : AgentSched) (e : Experience) (es : List Experience)
    (hUE : 0 < UPDATE_EVERY) :
    ((agentStep UPDATE_EVERY BATCH_SIZE BUFFER_SIZE s e).2 = true ↔
      ((s.t_step + 1) % UPDATE_EVERY = 0
        ∧ BATCH_SIZE < (dequeAppend BUFFER_SIZE s.memory e).length))
    ∧ (agentStep UPDATE_EVERY BATCH_SIZE BUFFER_SIZE s e).1.memory
        = dequeAppend BUFFER_SIZE s.memory e
    ∧ (agentStep UPDATE_EVERY BATCH_SIZE BUFFER_SIZE s e).1.t_step
        = (s.t_step + 1) % UPDATE_EVERY
    ∧ ((agentStep UPDATE_EVERY BATCH_SIZE BUFFER_SIZE s e).2 = true →
        BATCH_SIZE
          < (agentStep UPDATE_EVERY BATCH_SIZE BUFFER_SIZE s e).1.memory.length)
    ∧ (agentRun UPDATE_EVERY BATCH_SIZE BUFFER_SIZE es).t_step
        = es.length % UPDATE_EVERY := by
  refine ⟨?_, rfl, rfl, ?_, ?_⟩
  · simp [agentStep]
  · intro h
    simp [agentStep] at h ⊢
    exact h.2
  · unfold agentRun
    rw [agentRun_t_step_aux UPDATE_EVERY BATCH_SIZE BUFFER_SIZE hUE es ⟨0, []⟩ hUE]
    simp

/-- Witness for C5: `UPDATE_EVERY = 4`, `BATCH_SIZE = 2`, a state with
counter 3 and three stored records: this call wraps the counter and the
buffer exceeds the batch size, so learning fires; the run of three calls
leaves the counter at 3 % 4. -/
theorem agent_step_schedule_witness :
    let e : Experience := ⟨[0], [0], 0, [0], false⟩
    ((agentStep 4 2 10 ⟨3, [e, e, e]⟩ e).2 = true ↔
      ((3 + 1) % 4 = 0
        ∧ 2 < (dequeAppend 10 ([e, e, e] : List Experience) e).length))
    ∧ (agentStep 4 2 10 ⟨3, [e, e, e]⟩ e).1.memory
        = dequeAppend 10 ([e, e, e] : List Experience) e
    ∧ (agentStep 4 2 10 ⟨3, [e, e, e]⟩ e).1.t_step = (3 + 1) % 4
    ∧ ((agentStep 4 2 10 ⟨3, [e, e, e]⟩ e).2 = true →
        2 < (agentStep 4 2 10 ⟨3, [e, e, e]⟩ e).1.memory.length)
    ∧ (agentRun 4 2 10 [e, e, e]).t_step = 3 % 4 := by
  intro e
  exact agent_step_schedule 4 2 10 ⟨3, [e, e, e]⟩ e [e, e, e] (by decide)

/-! ### Training loop (`train_agent.ddpg`) -/

/-- `np.mean(scores_window)`: the arithmetic mean of however many scores the
window currently holds. -/
def windowMean (w : List ℚ) : ℚ := w.sum / w.length

/-- The episode loop of `ddpg` (`train_agent.py`, lines 24-49), abstracted
over the score each episode produces: for `i_episode` in `1..n_episodes`,
append the episode score to `scores_window = deque(maxlen=100)`, and if
`np.mean(scores_window) >= 30` then call `agent.save_model()` once and break.
Returns the episode index at which training stopped early (`none` if the
episode budget was exhausted) and the number of `save_model` calls. -/
def ddpgDriver (scoreOf : ℕ → ℚ) : ℕ → List ℚ → ℕ → Option ℕ × ℕ
  | 0, _, _ => (none, 0)
  | fuel + 1, w, i =>
    let w' := dequeAppend 100 w (scoreOf i)
    if 30 ≤ windowMean w' then (some i, 1)
    else ddpgDriver scoreOf fuel w' (i + 1)

/-- `ddpg` run for `n_episodes` from the empty score window, episode 1. -/
def ddpg (scoreOf : ℕ → ℚ) (n_episodes : ℕ) : Option ℕ × ℕ :=
  ddpgDriver scoreOf n_episodes [] 1

theorem ddpgDriver_succ (f : ℕ → ℚ) (fuel : ℕ) (w : List ℚ) (i : ℕ) :
    ddpgDriver f (fuel + 1) w i
      = if 30 ≤ windowMean (dequeAppend 100 w (f i)) then (some i, 1)
        else ddpgDriver f fuel (dequeAppend 100 w (f i)) (i + 1) := rfl

theorem ddpg_const35_eval : ddpg (fun _ => 35) 2000 = (some 1, 1) := by
  have h2000 : (2000 : ℕ) = 1999 + 1 := by norm_num
  rw [ddpg, h2000, ddpgDriver_succ]
  norm_num [windowMean, dequeAppend]

/-- Counterexample to C2: with every episode scoring 35.0 the loop does NOT
stop at episode 100 — `np.mean(scores_window)` averages the scores actually
present, so after episode 1 the window is `[35.0]` with mean 35 ≥ 30 and the
loop stops there. -/
theorem ddpg_early_stop_counterexample :
    (ddpg (fun _ => 35) 2000).1 = some 1
    ∧ (ddpg (fun _ => 35) 2000).1 ≠ some 100 := by
  rw [ddpg_const35_eval]
  exact ⟨rfl, by decide⟩

/-- C2 amended: with a constant episode score of 35.0 the training loop stops
early and invokes model persistence exactly once, at episode 1 — the first
episode at which the mean of the scores currently in the 100-score window
(one score at that point) reaches 30. -/
theorem ddpg_early_stop_amended :
    ddpg (fun _ => 35) 2000 = (some 1, 1) := ddpg_const35_eval

/-! ### Inner episode loop (`train_agent.ddpg`, lines 28-40) -/

/-- What one environment step returns (`env_info.vector_observations[0]`,
`env_info.rewards[0]`, `env_info.local_done[0]`). -/
structure EnvOut where
  next_state : List ℚ
  reward : ℚ
  done : Bool

/-- The inner loop of one episode: `for step in range(max_t)`: choose an
action from the state (the agent's policy composed with the exploration
noise), step the environment, call `agent.step` (counted), accumulate the
reward into the score, and break when `done`. The environment is an abstract
state machine `envStep`. Returns the episode score and the number of
`agent.step` calls. -/
def runEpisode (envStep : σ → List ℚ → σ × EnvOut) (chooseAct : List ℚ → List ℚ) :
    ℕ → σ → List ℚ → ℚ → ℕ → ℚ × ℕ
  | 0, _, _, score, n => (score, n)
  | fuel + 1, envSt, state, score, n =>
    let r := envStep envSt (chooseAct state)
    if r.2.done then (score + r.2.reward, n + 1)
    else runEpisode envStep chooseAct fuel r.1 r.2.next_state (score + r.2.reward) (n + 1)

/-- The claim's stub environment: constant reward 1.0, `done` exactly on the
5th step; its state counts the steps taken so far. -/
def stubEnv (n : ℕ) (_a : List ℚ) : ℕ × EnvOut :=
  (n + 1, ⟨[], 1, n + 1 == 5⟩)

/-- C9: against the stub environment (`done` after exactly 5 steps, reward
1.0 per step), one episode of the training loop accumulates a score of
exactly 5.0 and makes exactly 5 calls to `Agent.step`, for any step budget
`max_t ≥ 5` and any action choice. -/
theorem episode_stub_five (chooseAct : List ℚ → List ℚ) (state0 : List ℚ)
    (max_t : ℕ) (hmt : 5 ≤ max_t) :
    runEpisode stubEnv chooseAct max_t 0 state0 0 0 = (5, 5) := by
  obtain ⟨k, rfl⟩ : ∃ k, max_t = ((((k + 1) + 1) + 1) + 1) + 1 :=
    ⟨max_t - 5, by omega⟩
  simp only [runEpisode, stubEnv]
  norm_num

/-- Witness for C9 at the code's default `max_t = 10000`. -/
theorem episode_stub_five_witness :
    runEpisode stubEnv (fun s => s) 10000 0 [] 0 0 = (5, 5) :=
  episode_stub_five (fun s => s) [] 10000 (by omega)

/-! ### Persistence (Agent.save_model / Agent.load_model, lines 69-75) -/

/-- The live parameter sets that `save_model`/`load_model` persist:
`self.actor.state_dict()` and `self.critic.state_dict()`. -/
structure AgentParams where
  actor : List ℚ
  critic : List ℚ
  deriving Repr, DecidableEq

/-- Reading a path from the file system (an association list with the most
recent write first); `none` when the file is missing. -/
def fsRead : List (String × List ℚ) → String → Option (List ℚ)
  | [], _ => none
  | (k', v) :: rest, k => if k' = k then some v else fsRead rest k

/-- `Agent.save_model`: `torch.save(self.actor.state_dict(),
f"{checkpoint_path}/actor.pt")` then the same for the critic under
`critic.pt`. A write prepends to the file system. -/
def save_model (checkpoint_path : String) (ag : AgentParams)
    (fs : List (String × List ℚ)) : List (String × List ℚ) :=
  (checkpoint_path ++ "/critic.pt", ag.critic)
    :: (checkpoint_path ++ "/actor.pt", ag.actor) :: fs

/-- `Agent.load_model`: `self.actor.load_state_dict(torch.load(f"{checkpoint_path}/actor.pt"))`
then the same for the critic; `torch.load` fails when either artifact is
missing. -/
def load_model (checkpoint_path : String) (ag : AgentParams)
    (fs : List (String × List ℚ)) : Option AgentParams :=
  match fsRead fs (checkpoint_path ++ "/actor.pt"),
      fsRead fs (checkpoint_path ++ "/critic.pt") with
  | some a, some c => some { ag with actor := a, critic := c }
  | _, _ => none

theorem actor_critic_paths_ne (dir : String) :
    dir ++ "/critic.pt" ≠ dir ++ "/actor.pt" := by
  intro h
  have hlen := congrArg String.length h
  simp only [String.length_append] at hlen
  have h1 : ("/critic.pt" : String).length = 10 := rfl
  have h2 : ("/actor.pt" : String).length = 9 := rfl
  rw [h1, h2] at hlen
  omega

/-- C8: `save_model` writes exactly two artifacts, named by role (`actor.pt`,
`critic.pt`) under the given directory, and `load_model` on the same
directory reads back those same names, so loading after saving restores the
saved live actor and critic parameters — for any directory, any prior file
system, and any agent the restore is applied to. -/
theorem save_load_roundtrip (dir : String) (ag ag2 : AgentParams)
    (fs : List (String × List ℚ)) :
    save_model dir ag fs
      = (dir ++ "/critic.pt", ag.critic) :: (dir ++ "/actor.pt", ag.actor) :: fs
    ∧ load_model dir ag2 (save_model dir ag fs)
      = some ⟨ag.actor, ag.critic⟩ := by
  refine ⟨rfl, ?_⟩
  have hne := actor_critic_paths_ne dir
  simp [load_model, save_model, fsRead, hne]

/-! ### Agent.act (lines 77-91) -/

/-- Modelled from the spec: the Actor network (`network.py`, which is not in
the repository snapshot) is the Policy Function of the external-interface
contract, `evaluate(state_batch) → action_batch`, i.e. the state→action
policy applied to each row of the input batch. -/
def batchEval (policy : List ℚ → List ℚ) (batch : List (List ℚ)) :
    List (List ℚ) :=
  batch.map policy

/-- `Agent.act`: `state.unsqueeze(0)` turns the observation into a one-row
batch, `self.actor(state)` evaluates it (the `eval()`/`no_grad()`/`train()`
bracketing only disables gradient tracking and does not change the value),
and `action_values.tolist()` returns the nested Python list of the 1 ×
action_size tensor — the batch dimension is never removed. -/
def act (policy : List ℚ → List ℚ) (state : List ℚ) : List (List ℚ) :=
  batchEval policy [state]

/-- C10: for every well-formed state, `act` returns a nested 1 × action_size
list — a singleton list containing the policy's action vector — rather than
a flat action vector. -/
theorem act_nested_shape (policy : List ℚ → List ℚ) (state : List ℚ) (n : ℕ)
    (hpol : ∀ v, (policy v).length = n) :
    act policy state = [policy state]
    ∧ (act policy state).length = 1
    ∧ ∀ row ∈ act policy state, row.length = n := by
  refine ⟨rfl, rfl, ?_⟩
  intro row hrow
  simp only [act, batchEval, List.map_cons, List.map_nil,
    List.mem_singleton] at hrow
  rw [hrow]
  exact hpol state

/-- Witness for C10: a 4-component constant policy on a 2-component state
yields the nested singleton batch. -/
theorem act_nested_shape_witness :
    act (fun _ => ([0, 0, 0, 0] : List ℚ)) [1, 2] = [[0, 0, 0, 0]]
    ∧ (act (fun _ => ([0, 0, 0, 0] : List ℚ)) [1, 2]).length = 1
    ∧ ∀ row ∈ act (fun _ => ([0, 0, 0, 0] : List ℚ)) [1, 2], row.length = 4 :=
  act_nested_shape (fun _ => [0, 0, 0, 0]) [1, 2] 4 (fun _ => rfl)

end DRLND
